import Mathlib

/-!
Verification development for the Pointwise OpenFOAM CAE export plugin
(CaeUnsOpenFOAM).  The definitions below are a shallow embedding of the
plugin's file writers and streaming helpers.  Output files are modelled as a
list of completed text lines plus a current (not yet newline-terminated)
partial line; `fprintf`-style calls on a writer whose underlying handle is
null produce no stream content in the model (the C call would pass a null
`FILE*`), while the in-memory counters are updated exactly as the C++ code
does.
-/

namespace CaeUnsOpenFOAM

/-- Decimal digit character for a value 0..9, as produced by printf. -/
def digitChar (n : Nat) : Char := Char.ofNat (48 + n)

/-- Digit expansion worker, structurally recursive on a fuel bound (the
value strictly shrinks under division by 10, so `n` units of fuel always
suffice for `n`). -/
def natDecCharsAux : Nat → Nat → List Char
  | 0, _ => []
  | fuel + 1, n =>
    if n < 10 then [digitChar n]
    else natDecCharsAux fuel (n / 10) ++ [digitChar (n % 10)]

/-- Decimal digit characters of a natural number, most significant first.
Models the rendering of the printf `%lu` conversion. -/
def natDecChars (n : Nat) : List Char := natDecCharsAux (n + 1) n

/-- Decimal rendering of a natural number (printf `%lu`). -/
def natDec (n : Nat) : String := String.mk (natDecChars n)

/-- Left-justified field of width `w` padded with spaces on the right,
as produced by printf with a negative field width (`%*lu`, width `-w`). -/
def padRight (s : String) (w : Nat) : String :=
  s ++ String.mk (List.replicate (w - s.length) ' ')

/-- A character is a C-locale `isdigit` character. -/
def isDigitChar (c : Char) : Bool := '0' ≤ c && c ≤ '9'

/-- Does `sscanf(buf, " %lu")` succeed on this line?  It skips leading
whitespace and then requires at least one decimal digit. -/
def startsWithNat (s : String) : Bool :=
  match s.data.dropWhile (· = ' ') with
  | [] => false
  | c :: _ => isDigitChar c

/-- Numeric value read by `sscanf(buf, " %lu")` from a line: leading
whitespace skipped, then the maximal digit run. -/
def scanNatValue (s : String) : Nat :=
  ((s.data.dropWhile (· = ' ')).takeWhile isDigitChar).foldl
    (fun acc c => acc * 10 + (c.toNat - 48)) 0

/-- Does the line contain a `)` character (the `strrchr(buf, ')')` test)? -/
def containsRParen (s : String) : Bool := s.data.contains ')'

/-- Whitespace tokenisation of one line of text: maximal runs of non-space
characters. -/
def tokenizeChars (cs : List Char) : List (List Char) :=
  match cs with
  | [] => []
  | c :: rest =>
    if c = ' ' then tokenizeChars rest
    else (c :: rest.takeWhile (· ≠ ' ')) ::
      tokenizeChars (rest.dropWhile (· ≠ ' '))
termination_by cs.length
decreasing_by
  · simp only [List.length_cons]; omega
  · simp only [List.length_cons]
    exact Nat.lt_succ_of_le (List.dropWhile_sublist _).length_le

/-- Whitespace-separated tokens of a line. -/
def lineTokens (s : String) : List String :=
  (tokenizeChars s.data).map String.mk

/-- All whitespace-separated tokens of a list of lines, in order. -/
def linesTokens (ls : List String) : List String :=
  (ls.map lineTokens).flatten

/-!
## The framed file writer (class `FoamFile`)

A `FoamFile` is modelled by the list of completed lines written so far, the
current partial (not yet newline-terminated) line, the recorded file position
of the reserved item-count field (`pos_`, here the index of that line), the
item counter `numItems_`, and whether the underlying `FILE*` is non-null.
-/

/-- State of a `FoamFile` writer. -/
structure FoamFile where
  isOpen : Bool
  lines : List String
  cur : String
  countPos : Nat
  numItems : Nat
deriving Repr, DecidableEq

/-- A writer whose `open()` failed (or was never called): `fp_` is null and
`numItems_` was reset to 0.  No file content exists. -/
def FoamFile.unopened : FoamFile :=
  { isOpen := false, lines := [], cur := "", countPos := 0, numItems := 0 }

/-- Model of an `fprintf` whose format string ends in a newline: the current
partial line is completed with `s` appended.  A null `FILE*` produces no
stream content. -/
def FoamFile.emitLine (s : String) (f : FoamFile) : FoamFile :=
  if f.isOpen then { f with lines := f.lines ++ [f.cur ++ s], cur := "" }
  else f

/-- Model of an `fprintf` with no trailing newline: text is appended to the
current partial line.  A null `FILE*` produces no stream content. -/
def FoamFile.emitStr (s : String) (f : FoamFile) : FoamFile :=
  if f.isOpen then { f with cur := f.cur ++ s } else f

/-- `FoamFile::incrNumItems()`: `numItems_ += 1`, unconditionally. -/
def FoamFile.incrNumItems (f : FoamFile) : FoamFile :=
  { f with numItems := f.numItems + 1 }

/-- The standard header written by `FoamFile::writeFileHeader()`:
`FoamFile` block with version, format, class, location and object fields,
followed by a blank line. -/
def foamHeader (version format cls location object : String) : List String :=
  ["FoamFile",
   "\x7b",
   "    version     " ++ version ++ ";",
   "    format      " ++ format ++ ";",
   "    class       " ++ cls ++ ";",
   "    location    \"" ++ location ++ "\";",
   "    object      " ++ object ++ ";",
   "\x7d",
   ""]

/-- State after a successful `FoamFile::open()`: the header is written, the
file position of the reserved count field is recorded (`pos_`), a
zero-initialised count field of width 10 is written (`%*d` with width -10),
and the opening `(` list delimiter follows. -/
def FoamFile.openedFile (cls location object : String) : FoamFile :=
  { isOpen := true,
    lines := foamHeader "2.0" "ascii" cls location object ++
      [padRight (natDec 0) 10, "("],
    cur := "",
    countPos := (foamHeader "2.0" "ascii" cls location object).length,
    numItems := 0 }

/-!
## `FoamAddressFile` (owner / neighbour / set files)
-/

/-- `FoamAddressFile::needNewline()`: rows break after 10 items, so the item
whose pre-increment count is congruent to 9 ends its row. -/
def FoamFile.needNewline (f : FoamFile) : Bool :=
  f.numItems % 10 = 9

/-- `FoamAddressFile::writeAddress(addr)`: append ` addr` to the current row
(ending the row if it now holds 10 items) and increment the item counter. -/
def FoamFile.writeAddress (addr : Nat) (f : FoamFile) : FoamFile :=
  if f.needNewline then (f.emitLine (" " ++ natDec addr)).incrNumItems
  else (f.emitStr (" " ++ natDec addr)).incrNumItems

/-- `FoamAddressFile::cleanup()`: if the last row is partially filled,
terminate it with a newline. -/
def FoamFile.addressCleanup (f : FoamFile) : FoamFile :=
  if f.isOpen then (if f.numItems % 10 ≠ 0 then f.emitLine "" else f) else f

/-- `FoamFile::close()` with the `FoamAddressFile::notifyClosing()` hook:
patch the reserved count field at the recorded position with the final item
count (left-justified, width 10), run the end-of-row cleanup, write the `)`
list delimiter and release the handle.  A second `close()` is a no-op. -/
def FoamFile.closeAddress (f : FoamFile) : FoamFile :=
  if f.isOpen then
    let f1 := { f with
      lines := f.lines.set f.countPos (padRight (natDec f.numItems) 10) }
    let f2 := f1.addressCleanup
    let f3 := f2.emitLine ")"
    { f3 with isOpen := false }
  else f

/-- Fold `writeAddress` over a list of addresses. -/
def FoamFile.writeAddrList (addrs : List Nat) (f : FoamFile) : FoamFile :=
  addrs.foldl (fun st a => st.writeAddress a) f

/-- A finalized set file: opened in the `sets` directory with the given
class and object name, all addresses written, then closed. -/
def finalizedSetFile (cls object : String) (addrs : List Nat) : List String :=
  ((FoamFile.openedFile cls "constant/polyMesh/sets" object).writeAddrList
    addrs).closeAddress.lines

/-!
## `FoamFacesFile`
-/

/-- The `PWGM_ENUM_ELEMTYPE` tags relevant to the plugin. -/
inductive ElemType
  | bar | hex | quad | tri | tet | wedge | pyramid | point
deriving Repr, DecidableEq

/-- `PWGM_ELEMDATA`: the element type, vertex count, and (up to four)
global vertex indices. -/
structure ElemData where
  type : ElemType
  vertCnt : Nat
  i0 : Nat
  i1 : Nat
  i2 : Nat
  i3 : Nat
deriving Repr, DecidableEq

/-- A quad element `[a, b, c, d]` as streamed (vertCnt 4). -/
def mkQuad (a b c d : Nat) : ElemData := ⟨.quad, 4, a, b, c, d⟩

/-- A tri element `[a, b, c]` as streamed (vertCnt 3; slot 3 unused). -/
def mkTri (a b c : Nat) : ElemData := ⟨.tri, 3, a, b, c, 0⟩

/-- A bar element `[a, b]` as streamed (vertCnt 2; slots 2-3 unused). -/
def mkBar (a b : Nat) : ElemData := ⟨.bar, 2, a, b, 0, 0⟩

/-- One face record as printed by `fprintf("%lu(%lu ... %lu)")`: the count
followed by the parenthesised space-separated vertex list. -/
def faceRecord (n : Nat) (vs : List Nat) : String :=
  natDec n ++ "(" ++ String.intercalate " " (vs.map natDec) ++ ")"

/-- State of a `FoamFacesFile`: the base writer plus the constructor
arguments `is2D_` and `vertexCount_`. -/
structure FoamFacesFile extends FoamFile where
  is2D : Bool
  vertexCount : Nat
deriving Repr, DecidableEq

/-- A freshly opened faces file (`class faceList, object faces`). -/
def FoamFacesFile.opened (is2D : Bool) (vertexCount : Nat) : FoamFacesFile :=
  { toFoamFile := FoamFile.openedFile "faceList" "constant/polyMesh" "faces",
    is2D := is2D, vertexCount := vertexCount }

/-- `FoamFacesFile::writeFace(eData)`: quads are written as
`vertCnt(i3 i2 i1 i0)`, tris as `vertCnt(i2 i1 i0)`; bars in 2D-extrusion
mode are expanded to `vertCnt+2(i0 i1 i1+N i0+N)` with `N = vertexCount_`,
and otherwise written as `vertCnt(i1 i0)`.  Any other element type writes
nothing and leaves the writer untouched. -/
def FoamFacesFile.writeFace (e : ElemData) (f : FoamFacesFile) :
    FoamFacesFile :=
  match e.type with
  | .quad =>
    { f with toFoamFile :=
        ((f.toFoamFile.emitLine
          (faceRecord e.vertCnt [e.i3, e.i2, e.i1, e.i0])).incrNumItems) }
  | .tri =>
    { f with toFoamFile :=
        ((f.toFoamFile.emitLine
          (faceRecord e.vertCnt [e.i2, e.i1, e.i0])).incrNumItems) }
  | .bar =>
    if f.is2D then
      { f with toFoamFile :=
          ((f.toFoamFile.emitLine
            (faceRecord (e.vertCnt + 2)
              [e.i0, e.i1, e.i1 + f.vertexCount,
                e.i0 + f.vertexCount])).incrNumItems) }
    else
      { f with toFoamFile :=
          ((f.toFoamFile.emitLine
            (faceRecord e.vertCnt [e.i1, e.i0])).incrNumItems) }
  | _ => f

/-- Is this an element type for which `writeFace` emits a record? -/
def isWrittenType (t : ElemType) : Bool :=
  match t with
  | .quad | .tri | .bar => true
  | _ => false

/-- Fold `writeFace` over a stream of elements. -/
def FoamFacesFile.writeFaceList (es : List ElemData) (f : FoamFacesFile) :
    FoamFacesFile :=
  es.foldl (fun st e => st.writeFace e) f

/-!
## The boundary-condition accumulator (`BcStat` / `pushBcFace`)
-/

/-- `BcStat`: one contiguous face range sharing a boundary condition. -/
structure BcStat where
  name : String
  type : String
  nFaces : Nat
  startFace : Nat
deriving Repr, DecidableEq, Inhabited

/-- Condition under which `pushBcFace` starts a new BC group: the stat list
is empty or the last record's name differs from the incoming face's
condition name. -/
def startsNewGroup (stats : List BcStat) (name : String) : Bool :=
  match stats.getLast? with
  | none => true
  | some b => b.name ≠ name

/-- `OpenFoamPlugin::pushBcFace(condData, faceId)`: if the incoming face
starts a new BC group, push a fresh record with `nFaces = 1` and
`startFace = faceId`; otherwise increment the face count of the last
record. -/
def pushBcFace (stats : List BcStat) (name type : String) (faceId : Nat) :
    List BcStat :=
  match stats.getLast? with
  | none => stats ++ [⟨name, type, 1, faceId⟩]
  | some b =>
    if b.name = name then
      stats.dropLast ++ [{ b with nFaces := b.nFaces + 1 }]
    else stats ++ [⟨name, type, 1, faceId⟩]

/-- Push a streaming run of boundary faces, one per `(name, type)` pair,
with consecutive face ids starting at `faceId`. -/
def pushBcRun (stats : List BcStat) (conds : List (String × String))
    (faceId : Nat) : List BcStat :=
  match conds with
  | [] => stats
  | (n, t) :: rest => pushBcRun (pushBcFace stats n t faceId) rest (faceId + 1)

/-- Contiguity of the accumulated BC runs: each record starts where the
previous one ended. -/
def bcContiguous : List BcStat → Bool
  | [] => true
  | [_] => true
  | a :: b :: rest =>
    (b.startFace = a.startFace + a.nFaces) && bcContiguous (b :: rest)

/-- Total number of boundary faces covered by the accumulated records. -/
def sumNFaces (stats : List BcStat) : Nat :=
  (stats.map (·.nFaces)).sum

/-- Does the last accumulated record end exactly at face id `s`? -/
def lastEndsAt (stats : List BcStat) (s : Nat) : Bool :=
  match stats.getLast? with
  | none => true
  | some b => b.startFace + b.nFaces = s

/-!
## File-name sanitisation (`safeFileName` / `uniqueSafeFileName`)
-/

/-- C-locale `isalnum` on the ASCII range. -/
def isAlnumChar (c : Char) : Bool :=
  ('0' ≤ c && c ≤ '9') || ('a' ≤ c && c ≤ 'z') || ('A' ≤ c && c ≤ 'Z')

/-- `safeFileName(unsafeName, suffix)`: every character that is neither
alphanumeric nor one of `-`, `_`, `.` is replaced by an underscore, then
the suffix is appended. -/
def safeFileName (unsafeName : String) (sfx : String) : String :=
  String.mk (unsafeName.data.map (fun c =>
    if !isAlnumChar c && !("-_.".data.contains c) then '_' else c)) ++ sfx

/-- The candidate tried by `uniqueSafeFileName` at loop iteration `ndx`:
the sanitized base name itself for `ndx = 0`, then `base-1`, `base-2`, … -/
def uniqueCandidate (base : String) (ndx : Nat) : String :=
  if ndx = 0 then base else base ++ "-" ++ natDec ndx

/-- Fuel-driven unfolding of the `uniqueSafeFileName` while-loop: try
`base`, `base-1`, `base-2`, … until a candidate not in the used-name
registry is found.  `fuel` bounds the search; `usedNames.length + 1`
iterations always suffice because the candidates are pairwise distinct. -/
def uniqueLoop (base : String) (usedNames : List String) (ndx fuel : Nat) :
    String :=
  match fuel with
  | 0 => uniqueCandidate base ndx
  | fuel + 1 =>
    if usedNames.contains (uniqueCandidate base ndx) then
      uniqueLoop base usedNames (ndx + 1) fuel
    else uniqueCandidate base ndx

/-- `uniqueSafeFileName(unsafeName, usedNames, suffix)`: sanitize and
de-duplicate against the shared registry, returning the chosen name and
the registry with that name inserted. -/
def uniqueSafeFileName (unsafeName : String) (usedNames : List String)
    (sfx : String) : String × List String :=
  let chosen := uniqueLoop (safeFileName unsafeName sfx) usedNames 0
    (usedNames.length + 1)
  (chosen, usedNames ++ [chosen])

/-!
## Volume-condition set bundles (`VcSetFiles`)

The `tid` bitmask constants from `vctypes.h`.
-/

/-- `VcIFaces`: interior VC face set requested. -/
def VcIFaces : Nat := 1

/-- `VcBFaces`: boundary VC face set requested. -/
def VcBFaces : Nat := 2

/-- `VcSplit`: separate interior/boundary face set files requested. -/
def VcSplit : Nat := 4

/-- `VcCells`: VC cell set requested. -/
def VcCells : Nat := 8

/-- `VcFaces = VcIFaces | VcBFaces`. -/
def VcFaces : Nat := VcIFaces ||| VcBFaces

/-- `VcIBFaces = VcSplit | VcFaces`. -/
def VcIBFaces : Nat := VcSplit ||| VcFaces

/-- `PWGM_CONDDATA`: a condition's name, physical type and `tid` bitmask.
In the C API `name` is a `const char*` owned by the grid model; blocks
sharing one condition receive the same canonical pointer, so pointer
comparison in the source coincides with string identity here. -/
structure Cond where
  name : String
  type : String
  tid : Nat
deriving Repr, DecidableEq

/-- `PWGM_ENUM_FACETYPE`. -/
inductive FaceType
  | interior | boundary | connection
deriving Repr, DecidableEq

/-- A `VcSetFiles` bundle: up to three owned set files.  The file pointers
`internalFaceSetFile_` / `boundaryFaceSetFile_` / `cellSetFile_` are
modelled by optional object names, with `boundaryAliasesInternal` recording
the case where both face pointers reference one shared file.  Each file's
written address list is carried alongside. -/
structure VcSetFiles where
  internalName : Option String
  boundaryName : Option String
  boundaryAliasesInternal : Bool
  cellName : Option String
  internalContents : List Nat
  boundaryContents : List Nat
  cellContents : List Nat
deriving Repr, DecidableEq

/-- The `VcSetFiles` constructor: allocate and open set files according to
the condition's `tid` bitmask, drawing unique sanitized file names from the
shared registry.  Returns the bundle and the updated registry. -/
def mkVcSetFiles (vc : Cond) (usedNames : List String) :
    VcSetFiles × List String :=
  let empty : VcSetFiles :=
    ⟨none, none, false, none, [], [], []⟩
  let (b1, used1) :=
    if VcIBFaces &&& vc.tid = VcIBFaces then
      let (n1, u1) := uniqueSafeFileName vc.name usedNames "-interiorFaces"
      let (n2, u2) := uniqueSafeFileName vc.name u1 "-boundaryFaces"
      ({ empty with internalName := some n1, boundaryName := some n2 }, u2)
    else if VcFaces &&& vc.tid = VcFaces then
      let (n1, u1) := uniqueSafeFileName vc.name usedNames "-faces"
      ({ empty with
          internalName := some n1
          boundaryName := some n1
          boundaryAliasesInternal := true }, u1)
    else if VcIFaces &&& vc.tid ≠ 0 then
      let (n1, u1) := uniqueSafeFileName vc.name usedNames "-interiorFaces"
      ({ empty with internalName := some n1 }, u1)
    else if VcBFaces &&& vc.tid ≠ 0 then
      let (n1, u1) := uniqueSafeFileName vc.name usedNames "-boundaryFaces"
      ({ empty with boundaryName := some n1 }, u1)
    else (empty, usedNames)
  if VcCells &&& vc.tid ≠ 0 then
    let (nc, uc) := uniqueSafeFileName vc.name used1 "-cells"
    ({ b1 with cellName := some nc }, uc)
  else (b1, used1)

/-- `VcSetFiles::addFace(type, face)`: boundary and connection faces go to
the boundary face set file (which may alias the interior one); interior
faces go to the interior face set file; absent files swallow the write. -/
def VcSetFiles.addFace (t : FaceType) (face : Nat) (b : VcSetFiles) :
    VcSetFiles :=
  match t with
  | .boundary | .connection =>
    if b.boundaryAliasesInternal then
      { b with internalContents := b.internalContents ++ [face] }
    else
      match b.boundaryName with
      | some _ => { b with boundaryContents := b.boundaryContents ++ [face] }
      | none => b
  | .interior =>
    match b.internalName with
    | some _ => { b with internalContents := b.internalContents ++ [face] }
    | none => b

/-!
## `prepareVcSetFiles` and the face-streaming set builder
-/

/-- Lookup in an association list modelling `std::map` access through
`find` followed by use of the mapped value. -/
def alistFind (m : List (String × Nat)) (k : String) : Option Nat :=
  (m.find? (fun p => p.1 = k)).map (·.2)

/-- `std::map<...>::operator[]` lookup for `blkIdOffset_`: a missing key
value-initialises to 0. -/
def offsetLookup (m : List (Nat × Nat)) (k : Nat) : Nat :=
  (((m.find? (fun p => p.1 = k)).map (·.2)).getD 0)

/-- Accumulated state of `OpenFoamPlugin::prepareVcSetFiles()`. -/
structure PrepState where
  vcNameOffset : List (String × Nat)
  vcSetFiles : List VcSetFiles
  blkIdOffset : List (Nat × Nat)
  usedNames : List String
  totElemCnt : Nat
deriving Repr, DecidableEq

/-- One loop iteration of `prepareVcSetFiles`: for block `blkId` carrying
condition `vc` (and `elemCnt` cells), allocate a fresh `VcSetFiles` bundle
the first time the VC name is seen, otherwise reuse the mapped bundle;
record the block-to-bundle offset either way. -/
def prepStep (st : PrepState) (blkId : Nat) (vc : Cond) (elemCnt : Nat) :
    PrepState :=
  match alistFind st.vcNameOffset vc.name with
  | none =>
    let offset := st.vcSetFiles.length
    let (bundle, used) := mkVcSetFiles vc st.usedNames
    { vcNameOffset := st.vcNameOffset ++ [(vc.name, offset)],
      vcSetFiles := st.vcSetFiles ++ [bundle],
      blkIdOffset := st.blkIdOffset ++ [(blkId, offset)],
      usedNames := used,
      totElemCnt := st.totElemCnt + elemCnt }
  | some offset =>
    { st with
      blkIdOffset := st.blkIdOffset ++ [(blkId, offset)],
      totElemCnt := st.totElemCnt + elemCnt }

/-- `OpenFoamPlugin::prepareVcSetFiles()`: iterate over the blocks in id
order (block `i` carries condition `blocks[i].1` and `blocks[i].2` cells),
building the bundle arena, the name-to-offset and block-to-offset maps and
the shared used-file-name registry. -/
def prepareVcSetFiles (blocks : List (Cond × Nat)) : PrepState :=
  (blocks.enum.foldl (fun st p => prepStep st p.1 p.2.1 p.2.2)
    ⟨[], [], [], [], 0⟩)

/-!
## `adjustFaceType` and `addFaceToSet`
-/

/-- The grid-model lookups used during set building: block id to condition,
and cell index to owning block id.  `none` models a failed API call. -/
structure GridModel where
  blkCond : Nat → Option Cond
  cellBlkId : Nat → Option Nat

/-- `PWGM_FACESTREAM_DATA` fields used by the set builder. -/
structure FaceData where
  ftype : FaceType
  ownerBlkId : Nat
  neighborCellIndex : Nat
  face : Nat
deriving Repr, DecidableEq

/-- `OpenFoamPlugin::adjustFaceType(data)`: a `Connection` face whose owner
block and neighbour block carry the same volume-condition name is re-tagged
`Interior`; any lookup failure leaves the type unchanged. -/
def adjustFaceType (m : GridModel) (d : FaceData) : FaceType :=
  if d.ftype = .connection then
    match m.cellBlkId d.neighborCellIndex with
    | none => d.ftype
    | some neighborBlkId =>
      match m.blkCond d.ownerBlkId, m.blkCond neighborBlkId with
      | some vcOwner, some vcNeighbor =>
        if vcOwner.name = vcNeighbor.name then .interior else d.ftype
      | _, _ => d.ftype
  else d.ftype

/-- Mutable set-builder state during streaming: the block-to-bundle offset
map and the bundle arena. -/
structure SetBuilderState where
  blkIdOffset : List (Nat × Nat)
  bundles : List VcSetFiles
deriving Repr, DecidableEq

/-- `OpenFoamPlugin::addFaceToSet(blkId, faceType, face)`: push the face
into the bundle mapped from the block id (`vcSetFiles_.at(offset)`). -/
def addFaceToSetBlk (st : SetBuilderState) (blkId : Nat) (t : FaceType)
    (face : Nat) : SetBuilderState :=
  let offset := offsetLookup st.blkIdOffset blkId
  match st.bundles.get? offset with
  | some b => { st with bundles := st.bundles.set offset (b.addFace t face) }
  | none => st

/-- `OpenFoamPlugin::addFaceToSet(data)`: adjust the face type, push the
face into the owner block's bundle, and, only when the face is still a
`Connection`, also push it into the neighbour block's bundle. -/
def addFaceToSet (m : GridModel) (st : SetBuilderState) (d : FaceData) :
    SetBuilderState :=
  let faceType := adjustFaceType m d
  let st1 := addFaceToSetBlk st d.ownerBlkId faceType d.face
  if faceType = .connection then
    match m.cellBlkId d.neighborCellIndex with
    | some neighborBlkId => addFaceToSetBlk st1 neighborBlkId faceType d.face
    | none => st1
  else st1

/-!
## 2D extrusion: `offsetVertices`
-/

/-- `OpenFoamPlugin::offsetVertices(offset, elemData)`: add the vertex-plane
offset to slots 0-2 (and slot 3 for quads), then swap endpoints pairwise:
quads swap slots (0,3) and (1,2); tris swap slots (0,2). -/
def offsetVertices (offset : Nat) (e : ElemData) : ElemData :=
  let e1 := { e with
    i0 := e.i0 + offset
    i1 := e.i1 + offset
    i2 := e.i2 + offset }
  match e1.type with
  | .quad =>
    let e2 := { e1 with i3 := e1.i3 + offset }
    { e2 with i0 := e2.i3, i3 := e2.i0, i1 := e2.i2, i2 := e2.i1 }
  | .tri =>
    { e1 with i0 := e1.i2, i2 := e1.i0 }
  | _ => e1

/-!
## `FoamZoneFile::writeSet`: splicing a set file into a zone file
-/

/-- The first scanning loop of `writeSet`: read lines until one parses as a
bare item count under `sscanf(" %lu")`, leaving that line and everything
after it. -/
def findCountLine (ls : List String) : List String :=
  ls.dropWhile (fun l => !startsWithNat l)

/-- The copy loop of `writeSet`: emit lines until (and including) the first
one containing the `)` list-closing delimiter. -/
def takeThroughRParen : List String → List String
  | [] => []
  | l :: rest =>
    if containsRParen l then [l] else l :: takeThroughRParen rest

/-- The lines of the companion set file that `writeSet` copies verbatim:
from the item-count line through the line containing the closing `)`. -/
def spliceLines (setLines : List String) : List String :=
  takeThroughRParen (findCountLine setLines)

/-- Success flag of `writeSet`: true iff the closing `)` was found before
end-of-file once the count line was located. -/
def spliceFound (setLines : List String) : Bool :=
  (findCountLine setLines).any containsRParen

/-- The two prefix lines written by `FoamZoneFile::writeLabelListPrefix()`:
`type` with the first 8 characters of the object name (singular form) and
the label-list introducer with its first 4 characters. -/
def zoneTypeLines (object : String) : List String :=
  ["  type " ++ String.mk (object.data.take 8) ++ ";",
   "  " ++ String.mk (object.data.take 4) ++ "Labels List<label>"]

/-- `FoamZoneFile::writeSet(setName)` on a zone writer: an optional blank
separator line, the set name, an opening brace, the subclass prefix, the
verbatim copy of the set file's body (each copied line indented two
spaces), the `;` list terminator, the subclass suffix (sized by the parsed
label count) and the closing brace; the zone item counter is incremented.
Returns the updated zone state and the success flag. -/
def FoamFile.writeSet (zone : FoamFile) (object setName : String)
    (setLines : List String) (sfx : Nat → List String) :
    FoamFile × Bool :=
  let z0 := if zone.numItems ≠ 0 then zone.emitLine "" else zone
  let z1 := z0.emitLine setName
  let z2 := z1.emitLine "\x7b"
  let z3 := (zoneTypeLines object).foldl (fun z l => z.emitLine l) z2
  let copied := spliceLines setLines
  let labelCnt := match findCountLine setLines with
    | [] => 0
    | l :: _ => scanNatValue l
  let z4 := copied.foldl (fun z l => z.emitLine ("  " ++ l)) z3
  let z5 := z4.emitLine "  ;"
  let z6 := (sfx labelCnt).foldl (fun z l => z.emitLine l) z5
  let z7 := (z6.emitLine "\x7d").incrNumItems
  (z7, spliceFound setLines)

/-- The `FoamFaceZoneFile` suffix hook: an all-false `flipMap` sized to the
copied label count. -/
def faceZoneSuffix (labelCnt : Nat) : List String :=
  ["  flipMap List<bool> " ++ natDec labelCnt ++ "\x7b0\x7d;"]

/-- The `FoamCellZoneFile` suffix hook: nothing. -/
def cellZoneSuffix (_labelCnt : Nat) : List String := []

/-!
## The grid orientation analyzer and `run()` (2D preconditions)

Coordinates are modelled as exact rationals; the comparisons below are the
same comparisons the source performs on doubles.
-/

/-- A 3D point. -/
structure Pt where
  x : ℚ
  y : ℚ
  z : ℚ
deriving Repr, DecidableEq

/-- The first element of a block, as read by the orientation analyzer. -/
structure BlockElem where
  vertCnt : Nat
  i0 : Nat
  i1 : Nat
  i2 : Nat
  i3 : Nat
deriving Repr, DecidableEq

/-- Vertex lookup with the junk value read when the API call fails. -/
def vertAt (verts : List Pt) (i : Nat) : Pt :=
  verts.getD i ⟨0, 0, 0⟩

/-- `GridValidator::calcZOrientation`: the sign of the z component of the
cross product of the two candidate edge vectors (1 for `PositiveZ`,
-1 for `NegativeZ`). -/
def calcZOrientation (v1x v1y v2x v2y : ℚ) : Int :=
  if v1x * v2y - v1y * v2x > 0 then 1 else -1

/-- Orientation of one block from its first element: edge vectors from
vertex 0 to vertex 1 and from vertex 0 to the far vertex (slot 3 for quads,
slot 2 for tris). -/
def blockOrientation (verts : List Pt) (b : BlockElem) : Int :=
  let p0 := vertAt verts b.i0
  let p1 := vertAt verts b.i1
  let far := if b.vertCnt = 4 then b.i3 else b.i2
  let p2 := vertAt verts far
  calcZOrientation (p1.x - p0.x) (p1.y - p0.y) (p2.x - p0.x) (p2.y - p0.y)

/-- `GridValidator::isConsistent`: every block after the first must share
the first block's rotational orientation. -/
def gridConsistent (verts : List Pt) (blocks : List BlockElem) : Bool :=
  match blocks with
  | [] => true
  | b0 :: rest =>
    rest.all (fun b => blockOrientation verts b = blockOrientation verts b0)

/-- `GridValidator::isPlanar`: vertex 0's z-coordinate is compared against
every other vertex's z using the host-supplied point tolerance; a failed
vertex-0 lookup also marks the grid non-planar. -/
def isZPlanar (verts : List Pt) (gridPtTol : ℚ) : Bool :=
  match verts with
  | [] => false
  | v0 :: rest => rest.all (fun v => !(|v0.z - v.z| > gridPtTol))

/-- Environment of one `OpenFoamPlugin::run()` call: the exported grid's
dimensionality and geometry, the host-supplied attributes, and the outcomes
of the downstream stages (which are driven by external collaborators). -/
structure RunEnv where
  is2D : Bool
  verts : List Pt
  blocks : List BlockElem
  gridPtTol : ℚ
  cellExport : Nat
  faceExport : Nat
  progressInitOk : Bool
  createSetsDirOk : Bool
  vcBlocks : List (Cond × Nat)
  facesOk : Bool
  facesOpens : List String
  pointsOk : Bool
  pointsOpens : List String
  cellsOk : Bool
  cellsOpens : List String

/-- Result of a `run()` call: the returned flag, the polyMesh output files
opened during the call (in order), and the fatal error messages reported. -/
structure RunResult where
  ret : Bool
  opened : List String
  errors : List String
deriving Repr, DecidableEq

/-- `needSetsDir()`: any cell/face set or zone export requires the `sets`
directory. -/
def needSetsDir (env : RunEnv) : Bool :=
  (env.cellExport &&& 1 ≠ 0) || (env.cellExport &&& 2 ≠ 0) ||
  (env.faceExport &&& 1 ≠ 0) || (env.faceExport &&& 2 ≠ 0)

/-- The tail of `run()` after the 2D validation: the progress / sets-dir /
VC-set-file preparation / faces / points / cells else-if chain.  Set files
are opened by `prepareVcSetFiles`; the later stages are driven by external
collaborators whose outcomes and opened files come from the environment. -/
def runRest (env : RunEnv) : RunResult :=
  if !env.progressInitOk then ⟨false, [], []⟩
  else if needSetsDir env && !env.createSetsDirOk then
    ⟨false, [], ["Could not create 'sets' directory."]⟩
  else
    let prepOpens := if needSetsDir env then
      (prepareVcSetFiles env.vcBlocks).usedNames else []
    if !env.facesOk then
      ⟨false, prepOpens ++ env.facesOpens, ["Could not write face files."]⟩
    else if !env.pointsOk then
      ⟨false, prepOpens ++ env.facesOpens ++ env.pointsOpens,
        ["Could not write points file."]⟩
    else if !env.cellsOk then
      ⟨false, prepOpens ++ env.facesOpens ++ env.pointsOpens ++
        env.cellsOpens, ["Could not write cell sets."]⟩
    else
      ⟨true, prepOpens ++ env.facesOpens ++ env.pointsOpens ++
        env.cellsOpens, []⟩

/-- `OpenFoamPlugin::run()`: for a 2D export the grid properties are
validated first — a non-planar grid or inconsistent block orientations
produce a fatal error message and an immediate `PWP_FALSE` return, before
any polyMesh output file is opened. -/
def run (env : RunEnv) : RunResult :=
  if env.is2D then
    if !isZPlanar env.verts env.gridPtTol then
      ⟨false, [], ["The grid is not Z-planar."]⟩
    else if !gridConsistent env.verts env.blocks then
      ⟨false, [], ["The grid has inconsistent normals."]⟩
    else runRest env
  else runRest env

/-!
## Abstract description of an address file's body

Used to reason about the row structure produced by `writeAddress`.
-/

/-- Character content of one address row: each entry contributes a space
followed by its decimal digits (one `fprintf(" %lu")` per entry). -/
def rowChars (c : List Nat) : List Char :=
  (c.map (fun a => ' ' :: natDecChars a)).flatten

/-- One address row as a string. -/
def rowStr (c : List Nat) : String := String.mk (rowChars c)

/-- An address-file writer state mid-stream, described by its fixed opening
lines, its completed rows, and the entries of the current partial row. -/
def chunkState (hdr : List String) (full : List (List Nat))
    (last : List Nat) : FoamFile :=
  { isOpen := true,
    lines := hdr ++ [padRight (natDec 0) 10, "("] ++ full.map rowStr,
    cur := rowStr last,
    countPos := hdr.length,
    numItems := 10 * full.length + last.length }

/-- Row-chunking of a stream of addresses: a row closes when it reaches 10
entries, exactly as `needNewline()` breaks rows. -/
def chunkFold : List (List Nat) → List Nat → List Nat →
    List (List Nat) × List Nat
  | full, last, [] => (full, last)
  | full, last, a :: rest =>
    if last.length = 9 then chunkFold (full ++ [last ++ [a]]) [] rest
    else chunkFold full (last ++ [a]) rest

/-!
# Theorems
-/

/-- Effect of `writeFace` on the item counter alone: element types other
than quad/tri/bar leave it unchanged, the rest increment it by one. -/
theorem writeFace_numItems (f : FoamFacesFile) (e : ElemData) :
    (f.writeFace e).numItems
      = f.numItems + (if isWrittenType e.type then 1 else 0) := by
  cases h : e.type <;>
    simp [FoamFacesFile.writeFace, isWrittenType, h, FoamFile.emitLine,
      FoamFile.incrNumItems] <;>
    by_cases h2 : f.is2D = true <;>
    by_cases h3 : f.isOpen = true <;>
    simp_all

/-- C1: for every streamed quad face, `FoamFacesFile::writeFace` emits the
vertex indices in fully reversed order, and likewise for every tri face:
the record written for a quad `[a,b,c,d]` carries the reversed index list,
and concretely the quad `[0,1,2,3]` is written as the record `4(3 2 1 0)`
and the tri `[0,1,2]` as `3(2 1 0)`. -/
theorem writeFace_reverses_winding :
    (∀ (f : FoamFacesFile) (a b c d : Nat), f.isOpen = true →
      (f.writeFace (mkQuad a b c d)).lines
          = f.lines ++ [f.cur ++ faceRecord 4 ([a, b, c, d].reverse)]
        ∧ (f.writeFace (mkQuad a b c d)).numItems = f.numItems + 1)
  ∧ (∀ (f : FoamFacesFile) (a b c : Nat), f.isOpen = true →
      (f.writeFace (mkTri a b c)).lines
          = f.lines ++ [f.cur ++ faceRecord 3 ([a, b, c].reverse)]
        ∧ (f.writeFace (mkTri a b c)).numItems = f.numItems + 1)
  ∧ faceRecord 4 ([0, 1, 2, 3].reverse) = "4(3 2 1 0)"
  ∧ faceRecord 3 ([0, 1, 2].reverse) = "3(2 1 0)" := by
  refine ⟨?_, ?_, by decide, by decide⟩
  · intro f a b c d h
    simp [FoamFacesFile.writeFace, mkQuad, FoamFile.emitLine,
      FoamFile.incrNumItems, h]
  · intro f a b c h
    simp [FoamFacesFile.writeFace, mkTri, FoamFile.emitLine,
      FoamFile.incrNumItems, h]

/-- C1 witness: the quad `[0,1,2,3]` written to a freshly opened faces file
appends exactly the record `4(3 2 1 0)`. -/
theorem writeFace_reverses_winding_witness :
    (FoamFacesFile.opened false 100).isOpen = true
  ∧ ((FoamFacesFile.opened false 100).writeFace (mkQuad 0 1 2 3)).lines
      = (FoamFacesFile.opened false 100).lines ++
        [(FoamFacesFile.opened false 100).cur ++
          faceRecord 4 ([0, 1, 2, 3].reverse)] :=
  ⟨rfl, (writeFace_reverses_winding.1 (FoamFacesFile.opened false 100)
    0 1 2 3 rfl).1⟩

/-- C4: in 2D-extrusion mode, a streamed 2-vertex bar `[a,b]` is expanded
by `writeFace` into a 4-point quad using the offset-plane indexing scheme
`a, b, b+N, a+N` with `N` the original vertex count; concretely the bar
`[5,7]` with `N = 100` is written as the record `4(5 7 107 105)`. -/
theorem writeFace_bar_2d_expansion :
    (∀ (f : FoamFacesFile) (a b : Nat), f.isOpen = true → f.is2D = true →
      (f.writeFace (mkBar a b)).lines
          = f.lines ++ [f.cur ++ faceRecord 4
              [a, b, b + f.vertexCount, a + f.vertexCount]]
        ∧ (f.writeFace (mkBar a b)).numItems = f.numItems + 1)
  ∧ faceRecord 4 [5, 7, 7 + 100, 5 + 100] = "4(5 7 107 105)" := by
  refine ⟨?_, by decide⟩
  intro f a b h h2
  simp [FoamFacesFile.writeFace, mkBar, FoamFile.emitLine,
    FoamFile.incrNumItems, h, h2]

/-- C4 witness: the bar `[5,7]` on a freshly opened 2D faces file with
vertex count 100 appends exactly the record `4(5 7 107 105)`. -/
theorem writeFace_bar_2d_expansion_witness :
    (FoamFacesFile.opened true 100).isOpen = true
  ∧ (FoamFacesFile.opened true 100).is2D = true
  ∧ ((FoamFacesFile.opened true 100).writeFace (mkBar 5 7)).lines
      = (FoamFacesFile.opened true 100).lines ++
        [(FoamFacesFile.opened true 100).cur ++
          faceRecord 4 [5, 7, 7 + 100, 5 + 100]] :=
  ⟨rfl, rfl, (writeFace_bar_2d_expansion.1 (FoamFacesFile.opened true 100)
    5 7 rfl rfl).1⟩

/-- C9: the pairwise endpoint swaps of `offsetVertices` compose with the
output reversal of `writeFace` to the identity permutation: a quad or tri
element routed through `offsetVertices` is written with its vertices in the
original input order shifted by the vertex-plane offset, while the same
element written directly (the base layer) is emitted fully reversed — so
the two extrusion layers carry opposite windings. -/
theorem offsetVertices_writeFace_identity :
    (∀ (f : FoamFacesFile) (N a b c d : Nat), f.isOpen = true →
      (f.writeFace (offsetVertices N (mkQuad a b c d))).lines
          = f.lines ++ [f.cur ++ faceRecord 4 ([a, b, c, d].map (· + N))]
        ∧ (f.writeFace (mkQuad a b c d)).lines
          = f.lines ++ [f.cur ++ faceRecord 4 ([a, b, c, d].reverse)])
  ∧ (∀ (f : FoamFacesFile) (N a b c : Nat), f.isOpen = true →
      (f.writeFace (offsetVertices N (mkTri a b c))).lines
          = f.lines ++ [f.cur ++ faceRecord 3 ([a, b, c].map (· + N))]
        ∧ (f.writeFace (mkTri a b c)).lines
          = f.lines ++ [f.cur ++ faceRecord 3 ([a, b, c].reverse)]) := by
  constructor
  · intro f N a b c d h
    simp [offsetVertices, FoamFacesFile.writeFace, mkQuad,
      FoamFile.emitLine, FoamFile.incrNumItems, h]
  · intro f N a b c h
    simp [offsetVertices, FoamFacesFile.writeFace, mkTri,
      FoamFile.emitLine, FoamFile.incrNumItems, h]

/-- C9 witness: the offset copy of quad `[0,1,2,3]` with vertex offset 100
is written in original order as `4(100 101 102 103)`, while the base copy
is written reversed as `4(3 2 1 0)`. -/
theorem offsetVertices_writeFace_identity_witness :
    (FoamFacesFile.opened true 100).isOpen = true
  ∧ ((FoamFacesFile.opened true 100).writeFace
        (offsetVertices 100 (mkQuad 0 1 2 3))).lines
      = (FoamFacesFile.opened true 100).lines ++
        [(FoamFacesFile.opened true 100).cur ++
          faceRecord 4 ([0, 1, 2, 3].map (· + 100))]
  ∧ ((FoamFacesFile.opened true 100).writeFace (mkQuad 0 1 2 3)).lines
      = (FoamFacesFile.opened true 100).lines ++
        [(FoamFacesFile.opened true 100).cur ++
          faceRecord 4 ([0, 1, 2, 3].reverse)] :=
  ⟨rfl,
    (offsetVertices_writeFace_identity.1 (FoamFacesFile.opened true 100)
      100 0 1 2 3 rfl).1,
    (offsetVertices_writeFace_identity.1 (FoamFacesFile.opened true 100)
      100 0 1 2 3 rfl).2⟩

/-- C10: `writeFace` on an element whose type is not quad, tri or bar is a
no-op on the whole writer state, and consequently the faces-file item count
after streaming equals exactly the number of quad, tri and bar elements
passed to `writeFace`. -/
theorem writeFace_other_types_noop :
    (∀ (f : FoamFacesFile) (e : ElemData), isWrittenType e.type = false →
      f.writeFace e = f)
  ∧ (∀ (f : FoamFacesFile) (es : List ElemData),
      (f.writeFaceList es).numItems
        = f.numItems + es.countP (fun e => isWrittenType e.type)) := by
  constructor
  · intro f e h
    cases ht : e.type <;> simp [isWrittenType, ht] at h <;>
      simp [FoamFacesFile.writeFace, ht]
  · intro f es
    induction es generalizing f with
    | nil => simp [FoamFacesFile.writeFaceList]
    | cons e rest ih =>
      have step := writeFace_numItems f e
      simp only [FoamFacesFile.writeFaceList, List.foldl_cons] at *
      rw [ih (f.writeFace e), step, List.countP_cons]
      by_cases hw : isWrittenType e.type = true <;> simp [hw] <;> omega

/-- C10 witness: a hex element leaves a freshly opened faces file entirely
unchanged, and a quad-hex-tri stream counts exactly its two written faces. -/
theorem writeFace_other_types_noop_witness :
    isWrittenType ElemType.hex = false
  ∧ (FoamFacesFile.opened false 8).writeFace ⟨.hex, 8, 0, 1, 2, 3⟩
      = FoamFacesFile.opened false 8
  ∧ ((FoamFacesFile.opened false 8).writeFaceList
      [mkQuad 0 1 2 3, ⟨.hex, 8, 0, 1, 2, 3⟩, mkTri 4 5 6]).numItems
      = (FoamFacesFile.opened false 8).numItems + 2 :=
  ⟨rfl,
    writeFace_other_types_noop.1 (FoamFacesFile.opened false 8)
      ⟨.hex, 8, 0, 1, 2, 3⟩ rfl,
    writeFace_other_types_noop.2 (FoamFacesFile.opened false 8)
      [mkQuad 0 1 2 3, ⟨.hex, 8, 0, 1, 2, 3⟩, mkTri 4 5 6]⟩

/-- C8 counterexample: contrary to the claim that a writer whose `open()`
failed stays fully inert, `writeAddress` on such a writer still increments
the item counter, so the writer state does change. -/
theorem unopened_writeAddress_changes_state :
    (FoamFile.unopened.writeAddress 7).numItems = 1
  ∧ FoamFile.unopened.numItems = 0
  ∧ FoamFile.unopened.writeAddress 7 ≠ FoamFile.unopened := by
  refine ⟨rfl, rfl, ?_⟩
  decide

/-- C8 (amended): after a failed `open()` the writer produces no file
content on any subsequent write and `close()` is a no-op, but each write
call that reaches a record branch still increments the item counter
unconditionally — the writer is not fully inert. -/
theorem unopened_writer_no_output_but_counts :
    (∀ (f : FoamFile) (a : Nat), f.isOpen = false →
      (f.writeAddress a).lines = f.lines ∧ (f.writeAddress a).cur = f.cur
        ∧ (f.writeAddress a).numItems = f.numItems + 1)
  ∧ (∀ (f : FoamFacesFile) (e : ElemData), f.isOpen = false →
      (f.writeFace e).lines = f.lines ∧ (f.writeFace e).cur = f.cur
        ∧ (f.writeFace e).numItems
            = f.numItems + (if isWrittenType e.type then 1 else 0))
  ∧ (∀ (f : FoamFile), f.isOpen = false → f.closeAddress = f) := by
  refine ⟨?_, ?_, ?_⟩
  · intro f a h
    simp [FoamFile.writeAddress, FoamFile.emitLine, FoamFile.emitStr,
      FoamFile.incrNumItems, h]
  · intro f e h
    refine ⟨?_, ?_, writeFace_numItems f e⟩ <;>
      cases ht : e.type <;>
        simp [FoamFacesFile.writeFace, ht, FoamFile.emitLine,
          FoamFile.incrNumItems, h] <;>
        by_cases h2 : f.is2D = true <;> simp_all
  · intro f h
    simp [FoamFile.closeAddress, h]

/-- C8 amended-theorem witness: on the never-opened writer, one address
write leaves the file content empty and bumps the counter to 1, and a
close call is a no-op. -/
theorem unopened_writer_no_output_but_counts_witness :
    FoamFile.unopened.isOpen = false
  ∧ (FoamFile.unopened.writeAddress 7).lines = FoamFile.unopened.lines
  ∧ (FoamFile.unopened.writeAddress 7).numItems
      = FoamFile.unopened.numItems + 1
  ∧ FoamFile.unopened.closeAddress = FoamFile.unopened :=
  ⟨rfl,
    (unopened_writer_no_output_but_counts.1 FoamFile.unopened 7 rfl).1,
    (unopened_writer_no_output_but_counts.1 FoamFile.unopened 7 rfl).2.2,
    unopened_writer_no_output_but_counts.2.2 FoamFile.unopened rfl⟩

/-- C6: sanitizing the condition name `Inlet/Top` yields the file name
`Inlet_Top`; two blocks carrying that same condition name share one set
bundle (one `-faces` file, both blocks mapped to bundle 0); and a distinct
condition colliding after sanitisation receives an appended `-1` (then
`-2`) suffix from the shared used-names registry. -/
theorem condition_name_sanitisation_unique :
    safeFileName "Inlet/Top" "" = "Inlet_Top"
  ∧ (prepareVcSetFiles [(⟨"Inlet/Top", "fluid", VcFaces⟩, 5),
      (⟨"Inlet/Top", "fluid", VcFaces⟩, 7)]).vcSetFiles.length = 1
  ∧ (prepareVcSetFiles [(⟨"Inlet/Top", "fluid", VcFaces⟩, 5),
      (⟨"Inlet/Top", "fluid", VcFaces⟩, 7)]).usedNames
      = ["Inlet_Top-faces"]
  ∧ (prepareVcSetFiles [(⟨"Inlet/Top", "fluid", VcFaces⟩, 5),
      (⟨"Inlet/Top", "fluid", VcFaces⟩, 7)]).blkIdOffset
      = [(0, 0), (1, 0)]
  ∧ (uniqueSafeFileName "Inlet+Top" ["Inlet_Top-faces"] "-faces").1
      = "Inlet_Top-faces-1"
  ∧ (uniqueSafeFileName "Inlet+Top"
      ["Inlet_Top-faces", "Inlet_Top-faces-1"] "-faces").1
      = "Inlet_Top-faces-2" := by
  decide

/-- Contiguity of a stat list extended by one record: the list stays
contiguous iff it was contiguous and the new record starts where the last
one ended. -/
theorem bcContiguous_append (l : List BcStat) (x : BcStat) :
    bcContiguous (l ++ [x])
      = (bcContiguous l && lastEndsAt l x.startFace) := by
  induction l with
  | nil => simp [bcContiguous, lastEndsAt]
  | cons a rest ih =>
    cases rest with
    | nil =>
      simp [bcContiguous, lastEndsAt]
      omega
    | cons b t =>
      simp only [List.cons_append, List.append_eq, bcContiguous] at *
      rw [ih]
      simp [lastEndsAt, Bool.and_assoc]

/-- Total faces of a stat list extended by one record. -/
theorem sumNFaces_append (l : List BcStat) (x : BcStat) :
    sumNFaces (l ++ [x]) = sumNFaces l + x.nFaces := by
  simp [sumNFaces]

/-- One `pushBcFace` step preserves the streaming invariant: contiguity,
the last record ending exactly at the incoming face id, and the face total
growing by one. -/
theorem pushBcFace_inv (stats : List BcStat) (n t : String) (s : Nat)
    (hc : bcContiguous stats = true) (he : lastEndsAt stats s = true) :
    bcContiguous (pushBcFace stats n t s) = true
  ∧ lastEndsAt (pushBcFace stats n t s) (s + 1) = true
  ∧ sumNFaces (pushBcFace stats n t s) = sumNFaces stats + 1 := by
  match hlast : stats.getLast? with
  | none =>
    have hnil : stats = [] := List.getLast?_eq_none_iff.mp hlast
    subst hnil
    simp [pushBcFace, bcContiguous, lastEndsAt, sumNFaces]
  | some b =>
    have hsplit : stats.dropLast ++ [b] = stats :=
      List.dropLast_append_getLast? b hlast
    have he2 : b.startFace + b.nFaces = s := by
      simpa [lastEndsAt, hlast] using he
    by_cases hn : b.name = n
    · have hres : pushBcFace stats n t s
          = stats.dropLast ++ [{ b with nFaces := b.nFaces + 1 }] := by
        simp [pushBcFace, hlast, hn]
      have hc2 : bcContiguous (stats.dropLast ++ [b]) = true := by
        rw [hsplit]; exact hc
      rw [bcContiguous_append] at hc2
      refine ⟨?_, ?_, ?_⟩
      · rw [hres, bcContiguous_append]
        simp only [Bool.and_eq_true] at hc2 ⊢
        exact ⟨hc2.1, hc2.2⟩
      · rw [hres]
        simp [lastEndsAt, List.getLast?_concat]
        omega
      · rw [hres, sumNFaces_append]
        have : sumNFaces (stats.dropLast ++ [b]) = sumNFaces stats := by
          rw [hsplit]
        rw [sumNFaces_append] at this
        simp only
        omega
    · have hres : pushBcFace stats n t s = stats ++ [⟨n, t, 1, s⟩] := by
        simp [pushBcFace, hlast, hn]
      refine ⟨?_, ?_, ?_⟩
      · rw [hres, bcContiguous_append]
        simp only [Bool.and_eq_true]
        exact ⟨hc, by simpa [lastEndsAt, hlast] using he2⟩
      · rw [hres]
        simp [lastEndsAt, List.getLast?_concat]
      · rw [hres, sumNFaces_append]

/-- The full streaming run preserves the invariant. -/
theorem pushBcRun_inv (conds : List (String × String)) (stats : List BcStat)
    (s : Nat) (hc : bcContiguous stats = true)
    (he : lastEndsAt stats s = true) :
    bcContiguous (pushBcRun stats conds s) = true
  ∧ lastEndsAt (pushBcRun stats conds s) (s + conds.length) = true
  ∧ sumNFaces (pushBcRun stats conds s)
      = sumNFaces stats + conds.length := by
  induction conds generalizing stats s with
  | nil => simpa [pushBcRun] using ⟨hc, he⟩
  | cons c rest ih =>
    obtain ⟨h1, h2, h3⟩ := pushBcFace_inv stats c.1 c.2 s hc he
    obtain ⟨g1, g2, g3⟩ := ih (pushBcFace stats c.1 c.2 s) (s + 1) h1 h2
    refine ⟨?_, ?_, ?_⟩
    · simpa [pushBcRun] using g1
    · simp only [pushBcRun, List.length_cons]
      rw [show s + (rest.length + 1) = s + 1 + rest.length by omega]
      exact g2
    · simp only [pushBcRun, List.length_cons]
      rw [g3, h3]
      omega

/-- C2: a streaming run of boundary faces with consecutive face ids
accumulates contiguous `BcStat` records — each record starts where the
previous one ended and the face counts sum to the number of faces pushed —
and a single push appends a new record exactly when the incoming condition
name differs from the last record's name (or the list is empty). -/
theorem pushBcFace_contiguous_runs :
    (∀ (conds : List (String × String)) (s : Nat),
       bcContiguous (pushBcRun [] conds s) = true
     ∧ sumNFaces (pushBcRun [] conds s) = conds.length)
  ∧ (∀ (stats : List BcStat) (n t : String) (f : Nat),
      (pushBcFace stats n t f).length
        = stats.length + (if startsNewGroup stats n then 1 else 0)) := by
  constructor
  · intro conds s
    obtain ⟨h1, _, h3⟩ := pushBcRun_inv conds [] s (by simp [bcContiguous])
      (by simp [lastEndsAt])
    exact ⟨h1, by simpa [sumNFaces] using h3⟩
  · intro stats n t f
    match hlast : stats.getLast? with
    | none =>
      have hnil : stats = [] := List.getLast?_eq_none_iff.mp hlast
      subst hnil
      simp [pushBcFace, startsNewGroup]
    | some b =>
      have hsplit : stats.dropLast ++ [b] = stats :=
        List.dropLast_append_getLast? b hlast
      have hlen : stats.length = stats.dropLast.length + 1 := by
        conv_lhs => rw [← hsplit]
        simp
      by_cases hn : b.name = n
      · have hsg : startsNewGroup stats n = false := by
          simp [startsNewGroup, hlast, hn]
        simp [pushBcFace, hlast, hn, hsg]
        omega
      · simp [pushBcFace, hlast, hn, startsNewGroup]

/-- Writing back the value already stored at an index leaves a list
unchanged. -/
theorem list_set_get?_eq {α : Type} (l : List α) (n : Nat) (a : α)
    (h : l.get? n = some a) : l.set n a = l := by
  apply List.ext_getElem?
  intro i
  rw [List.getElem?_set]
  rw [List.get?_eq_getElem?] at h
  split
  · subst_vars
    rw [h]
    have : i < l.length := by
      by_contra hge
      rw [List.getElem?_eq_none (by omega)] at h
      exact Option.noConfusion h
    simp [this]
  · rfl

/-- C3: a streamed `Connection` face whose owner block and neighbour block
carry the same volume-condition name is reclassified `Interior` before set
building; it is then appended exactly once to the shared condition's
interior face set (by the owner-side push, the neighbour-side push being
skipped), and every bundle's boundary face set is left untouched. -/
theorem connection_same_vc_interior_once
    (m : GridModel) (st : SetBuilderState) (d : FaceData)
    (b : VcSetFiles) (nb o : Nat) (vcO vcN : Cond) (nm : String)
    (hft : d.ftype = .connection)
    (hnb : m.cellBlkId d.neighborCellIndex = some nb)
    (hco : m.blkCond d.ownerBlkId = some vcO)
    (hcn : m.blkCond nb = some vcN)
    (hname : vcO.name = vcN.name)
    (ho : offsetLookup st.blkIdOffset d.ownerBlkId = o)
    (hb : st.bundles.get? o = some b)
    (hint : b.internalName = some nm) :
    adjustFaceType m d = .interior
  ∧ (addFaceToSet m st d).bundles
      = st.bundles.set o
          { b with internalContents := b.internalContents ++ [d.face] }
  ∧ (addFaceToSet m st d).bundles.map (·.boundaryContents)
      = st.bundles.map (·.boundaryContents) := by
  have hadj : adjustFaceType m d = .interior := by
    simp [adjustFaceType, hft, hnb, hco, hcn, hname]
  have haf : b.addFace .interior d.face
      = { b with internalContents := b.internalContents ++ [d.face] } := by
    simp [VcSetFiles.addFace, hint]
  have hres : addFaceToSet m st d
      = { st with bundles := (st.bundles.set o
          { b with internalContents := b.internalContents ++ [d.face] }) } := by
    have hb2 := hb
    rw [List.get?_eq_getElem?] at hb2
    simp [addFaceToSet, hadj, addFaceToSetBlk, ho, hb2, haf]
  refine ⟨hadj, by rw [hres], ?_⟩
  rw [hres]
  simp only [List.map_set]
  apply list_set_get?_eq
  rw [List.get?_eq_getElem?] at hb ⊢
  simp [List.getElem?_map, hb]

/-- C3 witness: two blocks (ids 0 and 1) both carrying the VC named
`fluid`, a connection face with id 42 between them, and a shared bundle
with an open interior face set: the face is reclassified and lands once in
the interior set, with boundary sets untouched. -/
theorem connection_same_vc_interior_once_witness :
    adjustFaceType
      ⟨fun i => if i = 0 then some ⟨"fluid", "vol", 1⟩
        else if i = 1 then some ⟨"fluid", "vol", 1⟩ else none,
       fun c => if c = 9 then some 1 else none⟩
      ⟨.connection, 0, 9, 42⟩ = .interior
  ∧ (addFaceToSet
      ⟨fun i => if i = 0 then some ⟨"fluid", "vol", 1⟩
        else if i = 1 then some ⟨"fluid", "vol", 1⟩ else none,
       fun c => if c = 9 then some 1 else none⟩
      ⟨[(0, 0), (1, 0)], [⟨some "fluid-interiorFaces", none, false, none,
        [], [], []⟩]⟩
      ⟨.connection, 0, 9, 42⟩).bundles
      = [⟨some "fluid-interiorFaces", none, false, none, [42], [], []⟩] := by
  have h := connection_same_vc_interior_once
    ⟨fun i => if i = 0 then some ⟨"fluid", "vol", 1⟩
      else if i = 1 then some ⟨"fluid", "vol", 1⟩ else none,
     fun c => if c = 9 then some 1 else none⟩
    ⟨[(0, 0), (1, 0)], [⟨some "fluid-interiorFaces", none, false, none,
      [], [], []⟩]⟩
    ⟨.connection, 0, 9, 42⟩
    ⟨some "fluid-interiorFaces", none, false, none, [], [], []⟩
    1 0 ⟨"fluid", "vol", 1⟩ ⟨"fluid", "vol", 1⟩ "fluid-interiorFaces"
    rfl rfl rfl rfl rfl (by decide) (by decide) rfl
  exact ⟨h.1, by rw [h.2.1]; rfl⟩

/-- C7: a 2D export whose grid is non-planar (some vertex's z differs from
vertex 0's z by more than the host-supplied point tolerance) or whose
blocks have inconsistent rotational orientation makes `run()` report a
fatal error and return false before any polyMesh output file is opened or
written. -/
theorem run_2d_precondition_failure (env : RunEnv)
    (h2d : env.is2D = true)
    (htol : 0 ≤ env.gridPtTol)
    (hbad : (∃ (i : Nat) (v0 vi : Pt), env.verts.get? 0 = some v0
        ∧ env.verts.get? i = some vi ∧ |v0.z - vi.z| > env.gridPtTol)
      ∨ gridConsistent env.verts env.blocks = false) :
    (run env).ret = false ∧ (run env).opened = []
      ∧ (run env).errors ≠ [] := by
  cases hbad with
  | inl hex =>
    obtain ⟨i, v0, vi, h0, hi, hgt⟩ := hex
    have hnp : isZPlanar env.verts env.gridPtTol = false := by
      cases hverts : env.verts with
      | nil => simp [isZPlanar]
      | cons w rest =>
        rw [hverts] at h0 hi
        have hw : w = v0 := by simpa using h0
        subst hw
        cases i with
        | zero =>
          have : w = vi := by simpa using hi
          subst this
          simp at hgt
          exact absurd (lt_of_le_of_lt htol hgt) (lt_irrefl _)
        | succ j =>
          have hmem : vi ∈ rest := List.get?_mem (by simpa using hi)
          simp only [isZPlanar]
          rw [List.all_eq_false]
          exact ⟨vi, hmem, by simp [hgt]⟩
    simp [run, h2d, hnp]
  | inr hcons =>
    by_cases hp : isZPlanar env.verts env.gridPtTol = true
    · simp [run, h2d, hp, hcons]
    · simp only [Bool.not_eq_true] at hp
      simp [run, h2d, hp]

/-- C7 witness: a 2D environment whose two vertices differ in z by 1 with a
zero point tolerance makes `run` fail with no file opened and an error
reported. -/
theorem run_2d_precondition_failure_witness :
    (run ⟨true, [⟨0, 0, 0⟩, ⟨0, 0, 1⟩], [], 0, 0, 0, true, true, [],
        true, [], true, [], true, []⟩).ret = false
  ∧ (run ⟨true, [⟨0, 0, 0⟩, ⟨0, 0, 1⟩], [], 0, 0, 0, true, true, [],
        true, [], true, [], true, []⟩).opened = []
  ∧ (run ⟨true, [⟨0, 0, 0⟩, ⟨0, 0, 1⟩], [], 0, 0, 0, true, true, [],
        true, [], true, [], true, []⟩).errors ≠ [] :=
  run_2d_precondition_failure
    ⟨true, [⟨0, 0, 0⟩, ⟨0, 0, 1⟩], [], 0, 0, 0, true, true, [],
      true, [], true, [], true, []⟩
    rfl (le_refl 0)
    (Or.inl ⟨1, ⟨0, 0, 0⟩, ⟨0, 0, 1⟩, rfl, rfl, by simp⟩)

/-- The rendered digit of a value below ten is a digit character. -/
theorem isDigitChar_digitChar (m : Nat) (h : m < 10) :
    isDigitChar (digitChar m) = true := by
  interval_cases m <;> decide

/-- Every character produced by the digit-expansion worker is a digit. -/
theorem natDecCharsAux_digits (fuel n : Nat) :
    ∀ c ∈ natDecCharsAux fuel n, isDigitChar c = true := by
  induction fuel generalizing n with
  | zero => simp [natDecCharsAux]
  | succ fuel ih =>
    intro c hc
    simp only [natDecCharsAux] at hc
    split at hc
    · simp only [List.mem_singleton] at hc
      subst hc
      exact isDigitChar_digitChar n (by omega)
    · rw [List.mem_append] at hc
      rcases hc with h | h
      · exact ih (n / 10) c h
      · simp only [List.mem_singleton] at h
        subst h
        exact isDigitChar_digitChar _ (Nat.mod_lt _ (by omega))

/-- Every character of a rendered decimal is a digit. -/
theorem natDecChars_digits (n : Nat) :
    ∀ c ∈ natDecChars n, isDigitChar c = true :=
  natDecCharsAux_digits (n + 1) n

/-- A rendered decimal is never empty. -/
theorem natDecChars_ne_nil (n : Nat) : natDecChars n ≠ [] := by
  simp only [natDecChars, natDecCharsAux]
  split <;> simp

/-- A digit character is not a space. -/
theorem digit_ne_space {c : Char} (h : isDigitChar c = true) : c ≠ ' ' := by
  intro he
  subst he
  exact absurd h (by decide)

/-- A digit character is not a closing parenthesis. -/
theorem digit_ne_rparen {c : Char} (h : isDigitChar c = true) : c ≠ ')' := by
  intro he
  subst he
  exact absurd h (by decide)

/-- The patched count field parses as a bare item count under the
`sscanf(" %lu")` scan. -/
theorem startsWithNat_count_field (n w : Nat) :
    startsWithNat (padRight (natDec n) w) = true := by
  have hne := natDecChars_ne_nil n
  have hdata : (padRight (natDec n) w).data
      = natDecChars n ++ List.replicate (w - (natDec n).length) ' ' := rfl
  rw [startsWithNat, hdata]
  cases hd : natDecChars n with
  | nil => exact absurd hd hne
  | cons c cs =>
    have hc : isDigitChar c = true :=
      natDecChars_digits n c (by rw [hd]; exact List.mem_cons_self c cs)
    have hcs : (c = ' ') = False := by
      simp [digit_ne_space hc]
    simp only [List.cons_append, List.dropWhile_cons, decide_eq_true_eq,
      hcs, if_false]
    exact hc

/-- `sscanf(" %lu")` fails on any line made of a concrete prefix whose
first non-space character is not a digit, whatever follows. -/
theorem startsWithNat_prefix_false (p s : String)
    (h : (match p.data.dropWhile (· = ' ') with
          | [] => true
          | c :: _ => isDigitChar c) = false) :
    startsWithNat (p ++ s) = false := by
  rw [startsWithNat, show (p ++ s).data = p.data ++ s.data from rfl,
    List.dropWhile_append]
  cases hd : p.data.dropWhile (· = ' ') with
  | nil => rw [hd] at h; exact absurd h (by simp)
  | cons c cs =>
    rw [hd] at h
    simp only [List.isEmpty_cons, Bool.false_eq_true, if_false,
      List.cons_append]
    simpa using h

/-- No line of the standard file header parses as a bare item count. -/
theorem foamHeader_no_count (v f c l o : String) :
    ∀ s ∈ foamHeader v f c l o, startsWithNat s = false := by
  intro s hs
  simp only [foamHeader, List.mem_cons, List.not_mem_nil, or_false] at hs
  rcases hs with h | h | h | h | h | h | h | h | h <;> subst h
  · decide
  · decide
  · rw [String.append_assoc]
    exact startsWithNat_prefix_false "    version     " _ (by decide)
  · rw [String.append_assoc]
    exact startsWithNat_prefix_false "    format      " _ (by decide)
  · rw [String.append_assoc]
    exact startsWithNat_prefix_false "    class       " _ (by decide)
  · rw [String.append_assoc]
    exact startsWithNat_prefix_false "    location    \"" _ (by decide)
  · rw [String.append_assoc]
    exact startsWithNat_prefix_false "    object      " _ (by decide)
  · decide
  · decide

/-- Every character of an address row is a space or a digit. -/
theorem rowChars_space_or_digit (c : List Nat) :
    ∀ ch ∈ rowChars c, ch = ' ' ∨ isDigitChar ch = true := by
  intro ch hch
  simp only [rowChars, List.mem_flatten, List.mem_map] at hch
  obtain ⟨l, ⟨a, _, hl⟩, hmem⟩ := hch
  subst hl
  rcases List.mem_cons.mp hmem with h | h
  · exact Or.inl h
  · exact Or.inr (natDecChars_digits a ch h)

/-- A list without `)` among its members does not contain `)`. -/
theorem contains_rparen_false {l : List Char} (h : ∀ ch ∈ l, ch ≠ ')') :
    l.contains ')' = false := by
  rw [List.contains_eq_any_beq]
  rw [List.any_eq_false]
  intro ch hch
  have hne := h ch hch
  simp only [beq_iff_eq]
  exact fun he => hne he.symm

/-- Address rows never contain the closing parenthesis. -/
theorem containsRParen_rowStr (c : List Nat) :
    containsRParen (rowStr c) = false := by
  apply contains_rparen_false
  intro ch hch
  rcases rowChars_space_or_digit c ch hch with h | h
  · subst h; decide
  · exact digit_ne_rparen h

/-- The patched count field never contains the closing parenthesis. -/
theorem containsRParen_count_field (n w : Nat) :
    containsRParen (padRight (natDec n) w) = false := by
  apply contains_rparen_false
  intro ch hch
  have : ch ∈ natDecChars n ∨ ch ∈ List.replicate (w - (natDec n).length) ' ' := by
    simpa using (List.mem_append.mp hch)
  rcases this with h | h
  · exact digit_ne_rparen (natDecChars_digits n ch h)
  · rw [List.eq_of_mem_replicate h]; decide

/-- Copying rows stops exactly at the closing-parenthesis line. -/
theorem takeThroughRParen_rows (rows : List String)
    (h : ∀ r ∈ rows, containsRParen r = false) :
    takeThroughRParen (rows ++ [")"]) = rows ++ [")"] := by
  induction rows with
  | nil => decide
  | cons r rest ih =>
    have hr : containsRParen r = false := h r (List.mem_cons_self r rest)
    simp only [List.cons_append, takeThroughRParen, hr, Bool.false_eq_true,
      if_false, List.cons.injEq, true_and]
    exact ih (fun x hx => h x (List.mem_cons_of_mem r hx))

/-- The copy loop does find the closing parenthesis. -/
theorem any_rparen_rows (rows : List String) :
    (rows ++ [")"]).any containsRParen = true := by
  rw [List.any_append]
  simp [containsRParen]

/-- Tokenising a line that is a concatenation of space-prefixed space-free
tokens recovers exactly those tokens. -/
theorem tokenizeChars_rows (toks : List (List Char))
    (h : ∀ t ∈ toks, t ≠ [] ∧ ∀ c ∈ t, c ≠ ' ') :
    tokenizeChars ((toks.map (fun t => ' ' :: t)).flatten) = toks := by
  induction toks with
  | nil => simp [tokenizeChars]
  | cons t rest ih =>
    obtain ⟨hne, hnosp⟩ := h t (List.mem_cons_self t rest)
    have hrest := fun x hx => h x (List.mem_cons_of_mem t hx)
    cases ht : t with
    | nil => exact absurd ht hne
    | cons c cs =>
      subst ht
      have hc : (c = ' ') = False := by
        simp [hnosp c (List.mem_cons_self c cs)]
      have hcs : ∀ x ∈ cs, x ≠ ' ' :=
        fun x hx => hnosp x (List.mem_cons_of_mem c hx)
      have htake : cs.takeWhile (· ≠ ' ') = cs := by
        rw [List.takeWhile_eq_self_iff]
        intro x hx; simpa using hcs x hx
      have hdrop : cs.dropWhile (· ≠ ' ') = [] := by
        rw [List.dropWhile_eq_nil_iff]
        intro x hx; simpa using hcs x hx
      simp only [List.map_cons, List.flatten_cons, List.cons_append]
      rw [tokenizeChars]
      simp only [hc, if_true, if_false, reduceIte]
      rw [tokenizeChars]
      simp only [hc, if_false, reduceIte]
      cases rest with
      | nil =>
        simp only [List.map_nil, List.flatten_nil, List.append_nil]
        rw [htake, hdrop]
        simpa using ih (fun x hx => absurd hx (List.not_mem_nil x))
      | cons t2 rest2 =>
        obtain ⟨hne2, _⟩ := hrest t2 (List.mem_cons_self t2 rest2)
        have hflat : ((t2 :: rest2).map (fun t => ' ' :: t)).flatten
            = ' ' :: (t2 ++ ((rest2.map (fun t => ' ' :: t)).flatten)) := by
          simp
        rw [hflat]
        rw [List.takeWhile_append, htake]
        simp only [if_pos rfl]
        rw [show List.takeWhile (· ≠ ' ')
            (' ' :: (t2 ++ (rest2.map (fun t => ' ' :: t)).flatten)) = []
          from by simp [List.takeWhile_cons]]
        rw [List.append_nil, List.dropWhile_append, hdrop]
        simp only [List.isEmpty_nil, if_true, reduceIte]
        rw [show List.dropWhile (· ≠ ' ')
            (' ' :: (t2 ++ (rest2.map (fun t => ' ' :: t)).flatten))
            = ' ' :: (t2 ++ (rest2.map (fun t => ' ' :: t)).flatten)
          from by simp [List.dropWhile_cons]]
        rw [← hflat]
        rw [ih hrest]

/-- Tokenising one written address row recovers the rendered entries. -/
theorem lineTokens_rowStr (c : List Nat) :
    lineTokens (rowStr c) = c.map natDec := by
  have harg : rowChars c
      = ((c.map natDecChars).map (fun t => ' ' :: t)).flatten := by
    simp [rowChars, List.map_map]
    rfl
  have h := tokenizeChars_rows (c.map natDecChars) ?_
  · rw [lineTokens, show (rowStr c).data = rowChars c from rfl, harg, h,
      List.map_map]
    rfl
  · intro t ht
    rw [List.mem_map] at ht
    obtain ⟨a, _, rfl⟩ := ht
    exact ⟨natDecChars_ne_nil a,
      fun x hx => digit_ne_space (natDecChars_digits a x hx)⟩

/-- Tokenising a block of written rows recovers all rendered entries in
order. -/
theorem linesTokens_rows (rows : List (List Nat)) :
    linesTokens (rows.map rowStr) = rows.flatten.map natDec := by
  rw [linesTokens, List.map_map, List.map_flatten]
  congr 1
  apply List.map_congr_left
  intro c _
  simp only [Function.comp_apply, lineTokens_rowStr c]

/-- Appending one entry to a row appends its rendering. -/
theorem rowStr_append (l : List Nat) (a : Nat) :
    rowStr (l ++ [a]) = rowStr l ++ (" " ++ natDec a) := by
  simp only [rowStr, rowChars, List.map_append, List.flatten_append,
    List.map_cons, List.map_nil, List.flatten_cons, List.flatten_nil,
    List.append_nil]
  rfl

/-- The empty row renders as the empty string. -/
theorem rowStr_nil : rowStr [] = "" := rfl

theorem writeAddress_chunkState (hdr : List String) (full : List (List Nat))
    (last : List Nat) (a : Nat) (hl : last.length < 10) :
    (chunkState hdr full last).writeAddress a
      = if last.length = 9 then chunkState hdr (full ++ [last ++ [a]]) []
        else chunkState hdr full (last ++ [a]) := by
  by_cases h9 : last.length = 9
  · rw [if_pos h9]
    simp [FoamFile.writeAddress, FoamFile.needNewline, chunkState,
      FoamFile.emitLine, FoamFile.emitStr, FoamFile.incrNumItems, h9,
      Nat.mul_add_mod, rowStr_append, rowStr_nil]
    omega
  · rw [if_neg h9]
    have hm : last.length % 10 = last.length := Nat.mod_eq_of_lt hl
    simp [FoamFile.writeAddress, FoamFile.needNewline, chunkState,
      FoamFile.emitLine, FoamFile.emitStr, FoamFile.incrNumItems,
      Nat.mul_add_mod, hm, h9, rowStr_append]
    omega

/-- The partial row stays below ten entries throughout chunking. -/
theorem chunkFold_last_lt (addrs : List Nat) (full : List (List Nat))
    (last : List Nat) (hl : last.length < 10) :
    (chunkFold full last addrs).2.length < 10 := by
  induction addrs generalizing full last with
  | nil => simpa [chunkFold] using hl
  | cons a rest ih =>
    by_cases h9 : last.length = 9
    · simpa [chunkFold, h9] using ih _ [] (by simp)
    · simpa [chunkFold, h9] using ih full (last ++ [a]) (by simp; omega)

/-- Chunking preserves the stream contents in order. -/
theorem chunkFold_content (addrs : List Nat) (full : List (List Nat))
    (last : List Nat) :
    (chunkFold full last addrs).1.flatten ++ (chunkFold full last addrs).2
      = full.flatten ++ last ++ addrs := by
  induction addrs generalizing full last with
  | nil => simp [chunkFold]
  | cons a rest ih =>
    by_cases h9 : last.length = 9
    · rw [chunkFold]
      simp only [h9, if_pos rfl, reduceIte]
      rw [ih]
      simp
    · rw [chunkFold]
      simp only [h9, if_neg h9, reduceIte]
      rw [ih]
      simp

/-- The full address-writing pass in terms of row chunks. -/
theorem writeAddrList_chunkState (addrs : List Nat) (hdr : List String)
    (full : List (List Nat)) (last : List Nat) (hl : last.length < 10) :
    (chunkState hdr full last).writeAddrList addrs
      = chunkState hdr (chunkFold full last addrs).1
          (chunkFold full last addrs).2 := by
  induction addrs generalizing full last with
  | nil => simp [FoamFile.writeAddrList, chunkFold]
  | cons a rest ih =>
    have hstep := writeAddress_chunkState hdr full last a hl
    by_cases h9 : last.length = 9
    · rw [if_pos h9] at hstep
      simp only [FoamFile.writeAddrList, List.foldl_cons] at *
      rw [hstep, chunkFold]
      simp only [h9, if_pos rfl, reduceIte]
      exact ih _ [] (by simp)
    · rw [if_neg h9] at hstep
      simp only [FoamFile.writeAddrList, List.foldl_cons] at *
      rw [hstep, chunkFold]
      simp only [h9, if_neg h9, reduceIte]
      exact ih _ (last ++ [a]) (by simp; omega)

/-- A freshly opened address file is the empty abstract state. -/
theorem openedFile_eq_chunkState (cls location object : String) :
    FoamFile.openedFile cls location object
      = chunkState (foamHeader "2.0" "ascii" cls location object) [] [] := by
  simp [FoamFile.openedFile, chunkState, rowStr_nil]

/-- Closing an address file from an abstract state: the count field is
patched in place, a partial row is newline-terminated, and the closing
parenthesis line is appended. -/
theorem closeAddress_chunkState (hdr : List String) (full : List (List Nat))
    (last : List Nat) (hl : last.length < 10) :
    (chunkState hdr full last).closeAddress
      = { isOpen := false,
          lines := hdr
            ++ [padRight (natDec (10 * full.length + last.length)) 10, "("]
            ++ full.map rowStr
            ++ (if last = [] then [] else [rowStr last]) ++ [")"],
          cur := "",
          countPos := hdr.length,
          numItems := 10 * full.length + last.length } := by
  have hset : (hdr ++ [padRight (natDec 0) 10, "("] ++ full.map rowStr).set
      hdr.length (padRight (natDec (10 * full.length + last.length)) 10)
      = hdr ++ [padRight (natDec (10 * full.length + last.length)) 10, "("]
        ++ full.map rowStr := by
    rw [List.append_assoc, List.append_assoc, List.set_append,
      if_neg (by omega)]
    simp
  have hm : (10 * full.length + last.length) % 10 = last.length := by
    rw [Nat.mul_add_mod]
    exact Nat.mod_eq_of_lt hl
  by_cases hnil : last = []
  · subst hnil
    simp only [chunkState, FoamFile.closeAddress, FoamFile.addressCleanup,
      FoamFile.emitLine, FoamFile.emitStr, List.length_nil, Nat.add_zero,
      if_pos rfl, reduceIte, rowStr_nil]
    simp [hset, hm]
  · have hpos : last.length ≠ 0 := by
      simpa [List.length_eq_zero] using hnil
    simp only [chunkState, FoamFile.closeAddress, FoamFile.addressCleanup,
      FoamFile.emitLine, FoamFile.emitStr, rowStr_nil]
    simp [hset, hm, hpos, hnil]

/-- The finalized set file, described by its row chunks. -/
theorem finalizedSetFile_eq (cls object : String) (addrs : List Nat) :
    finalizedSetFile cls object addrs
      = foamHeader "2.0" "ascii" cls "constant/polyMesh/sets" object
        ++ [padRight (natDec (10 * (chunkFold [] [] addrs).1.length
              + (chunkFold [] [] addrs).2.length)) 10, "("]
        ++ (chunkFold [] [] addrs).1.map rowStr
        ++ (if (chunkFold [] [] addrs).2 = [] then []
            else [rowStr (chunkFold [] [] addrs).2]) ++ [")"] := by
  rw [finalizedSetFile, openedFile_eq_chunkState,
    writeAddrList_chunkState _ _ _ _ (by simp),
    closeAddress_chunkState _ _ _ (chunkFold_last_lt _ _ _ (by simp))]

/-- The `writeSet` scan and copy loops on a well-formed set file body:
the splice is the verbatim suffix from the count line through the closing
parenthesis line, and the copy succeeds. -/
theorem splice_shape (hdr : List String) (cnt : String) (rows : List String)
    (hhdr : ∀ s ∈ hdr, startsWithNat s = false)
    (hcnt : startsWithNat cnt = true)
    (hcnp : containsRParen cnt = false)
    (hrows : ∀ r ∈ rows, containsRParen r = false) :
    spliceLines (hdr ++ [cnt, "("] ++ rows ++ [")"])
      = [cnt, "("] ++ rows ++ [")"]
  ∧ spliceFound (hdr ++ [cnt, "("] ++ rows ++ [")"]) = true := by
  have hdw : hdr.dropWhile (fun l => !startsWithNat l) = [] := by
    rw [List.dropWhile_eq_nil_iff]
    intro x hx
    simp [hhdr x hx]
  have hfind : findCountLine (hdr ++ [cnt, "("] ++ rows ++ [")"])
      = [cnt, "("] ++ rows ++ [")"] := by
    rw [findCountLine, List.append_assoc, List.append_assoc,
      List.dropWhile_append, hdw]
    simp only [List.isEmpty_nil, if_pos rfl, reduceIte]
    rw [List.cons_append, List.dropWhile_cons]
    simp [hcnt]
  have hall : ∀ r ∈ cnt :: "(" :: rows, containsRParen r = false := by
    intro r hr
    rcases List.mem_cons.mp hr with h | hr2
    · subst h; exact hcnp
    · rcases List.mem_cons.mp hr2 with h | h
      · subst h; decide
      · exact hrows r h
  have htake : takeThroughRParen ((cnt :: "(" :: rows) ++ [")"])
      = (cnt :: "(" :: rows) ++ [")"] := takeThroughRParen_rows _ hall
  constructor
  · rw [spliceLines, hfind]
    simpa using htake
  · rw [spliceFound, hfind]
    simpa using any_rparen_rows (cnt :: "(" :: rows)

/-- `fprintf` of one full line on an open writer with no pending partial
line appends exactly that line. -/
theorem emitLine_open (z : FoamFile) (s : String)
    (hopen : z.isOpen = true) (hcur : z.cur = "") :
    z.emitLine s = { z with lines := z.lines ++ [s], cur := "" } := by
  simp [FoamFile.emitLine, hopen, hcur]

/-- A run of full-line `fprintf` calls appends the corresponding lines. -/
theorem foldl_emitLine (ls : List String) (z : FoamFile)
    (hopen : z.isOpen = true) (hcur : z.cur = "") :
    ls.foldl (fun z l => z.emitLine l) z
      = { z with lines := z.lines ++ ls, cur := "" } := by
  induction ls generalizing z with
  | nil =>
    simp only [List.foldl_nil, List.append_nil]
    cases z
    simp_all
  | cons l rest ih =>
    simp only [List.foldl_cons]
    rw [emitLine_open z l hopen hcur, ih _ (by simpa using hopen) rfl]
    simp

/-- A run of full-line `fprintf` calls through a rendering function. -/
theorem foldl_emitLine_map (g : String → String) (ls : List String)
    (z : FoamFile) (hopen : z.isOpen = true) (hcur : z.cur = "") :
    ls.foldl (fun z l => z.emitLine (g l)) z
      = { z with lines := z.lines ++ ls.map g, cur := "" } := by
  induction ls generalizing z with
  | nil =>
    simp only [List.foldl_nil, List.map_nil, List.append_nil]
    cases z
    simp_all
  | cons l rest ih =>
    simp only [List.foldl_cons, List.map_cons]
    rw [emitLine_open z (g l) hopen hcur, ih _ (by simpa using hopen) rfl]
    simp

/-- `FoamZoneFile::writeSet` in closed form: it appends the zone entry
frame around the verbatim splice of the set file's body, bumps the zone
item counter, and reports whether the copy found the closing delimiter. -/
theorem writeSet_lines (zone : FoamFile) (object setName : String)
    (setLines : List String) (sfx : Nat → List String)
    (hopen : zone.isOpen = true) (hcur : zone.cur = "") :
    (zone.writeSet object setName setLines sfx).1
      = { zone with
          lines := zone.lines ++ (if zone.numItems = 0 then [] else [""])
            ++ [setName, "\x7b"] ++ zoneTypeLines object
            ++ (spliceLines setLines).map (fun l => "  " ++ l)
            ++ ["  ;"]
            ++ sfx (match findCountLine setLines with
                    | [] => 0
                    | l :: _ => scanNatValue l)
            ++ ["\x7d"],
          cur := "",
          numItems := zone.numItems + 1 }
  ∧ (zone.writeSet object setName setLines sfx).2
      = spliceFound setLines := by
  refine ⟨?_, rfl⟩
  by_cases h0 : zone.numItems = 0
  · simp only [FoamFile.writeSet]
    rw [if_neg (by simp [h0])]
    simp only [emitLine_open, foldl_emitLine, foldl_emitLine_map, hopen,
      hcur, FoamFile.incrNumItems]
    simp [List.append_assoc, h0]
  · simp only [FoamFile.writeSet]
    rw [if_pos (by simp [h0]), emitLine_open zone "" hopen hcur]
    simp only [emitLine_open, foldl_emitLine, foldl_emitLine_map, hopen,
      hcur, FoamFile.incrNumItems]
    simp [List.append_assoc, h0]

/-- C5: splicing a finalized set file into a zone file via `writeSet` is a
content-preserving copy: the copied block is exactly the set file's body
from the item-count line through the line containing the closing `)`, its
data rows tokenise back to the written address list in order, the zone
entry wraps that verbatim copy, and the copy reports success. -/
theorem setFile_splice_roundtrip (cls setName : String)
    (addrs : List Nat) (zone : FoamFile)
    (hopen : zone.isOpen = true) (hcur : zone.cur = "") :
    spliceLines (finalizedSetFile cls setName addrs)
      = (finalizedSetFile cls setName addrs).drop 9
  ∧ linesTokens
      (((spliceLines (finalizedSetFile cls setName addrs)).drop 2).dropLast)
      = addrs.map natDec
  ∧ (zone.writeSet "cellZones" setName (finalizedSetFile cls setName addrs)
      cellZoneSuffix).1.lines
      = zone.lines ++ (if zone.numItems = 0 then [] else [""])
        ++ [setName, "\x7b"] ++ zoneTypeLines "cellZones"
        ++ (spliceLines (finalizedSetFile cls setName addrs)).map
            (fun l => "  " ++ l)
        ++ ["  ;", "\x7d"]
  ∧ (zone.writeSet "cellZones" setName (finalizedSetFile cls setName addrs)
      cellZoneSuffix).2 = true := by
  have hL : finalizedSetFile cls setName addrs
      = foamHeader "2.0" "ascii" cls "constant/polyMesh/sets" setName
        ++ [padRight (natDec (10 * (chunkFold [] [] addrs).1.length
              + (chunkFold [] [] addrs).2.length)) 10, "("]
        ++ ((chunkFold [] [] addrs).1.map rowStr
            ++ (if (chunkFold [] [] addrs).2 = [] then []
                else [rowStr (chunkFold [] [] addrs).2])) ++ [")"] := by
    rw [finalizedSetFile_eq]
    simp [List.append_assoc]
  have hrowsP : ∀ r ∈ (chunkFold [] [] addrs).1.map rowStr
      ++ (if (chunkFold [] [] addrs).2 = [] then []
          else [rowStr (chunkFold [] [] addrs).2]),
      containsRParen r = false := by
    intro r hr
    rcases List.mem_append.mp hr with h | h
    · obtain ⟨c, _, rfl⟩ := List.mem_map.mp h
      exact containsRParen_rowStr c
    · split at h
      · exact absurd h (List.not_mem_nil r)
      · rw [List.mem_singleton] at h
        subst h
        exact containsRParen_rowStr _
  have hsplice := splice_shape
    (foamHeader "2.0" "ascii" cls "constant/polyMesh/sets" setName)
    (padRight (natDec (10 * (chunkFold [] [] addrs).1.length
      + (chunkFold [] [] addrs).2.length)) 10)
    ((chunkFold [] [] addrs).1.map rowStr
      ++ (if (chunkFold [] [] addrs).2 = [] then []
          else [rowStr (chunkFold [] [] addrs).2]))
    (foamHeader_no_count _ _ _ _ _)
    (startsWithNat_count_field _ _)
    (containsRParen_count_field _ _)
    hrowsP
  have hsp1 : spliceLines (finalizedSetFile cls setName addrs)
      = [padRight (natDec (10 * (chunkFold [] [] addrs).1.length
          + (chunkFold [] [] addrs).2.length)) 10, "("]
        ++ ((chunkFold [] [] addrs).1.map rowStr
            ++ (if (chunkFold [] [] addrs).2 = [] then []
                else [rowStr (chunkFold [] [] addrs).2])) ++ [")"] := by
    rw [hL]
    exact hsplice.1
  have hdrop9 : (finalizedSetFile cls setName addrs).drop 9
      = [padRight (natDec (10 * (chunkFold [] [] addrs).1.length
          + (chunkFold [] [] addrs).2.length)) 10, "("]
        ++ ((chunkFold [] [] addrs).1.map rowStr
            ++ (if (chunkFold [] [] addrs).2 = [] then []
                else [rowStr (chunkFold [] [] addrs).2])) ++ [")"] := by
    rw [hL]
    rw [show (9 : Nat) = (foamHeader "2.0" "ascii" cls
      "constant/polyMesh/sets" setName).length from by simp [foamHeader]]
    rw [List.append_assoc, List.append_assoc, List.drop_left]
    simp [List.append_assoc]
  have htok : linesTokens
      (((spliceLines (finalizedSetFile cls setName addrs)).drop 2).dropLast)
      = addrs.map natDec := by
    rw [hsp1]
    have hcontent := chunkFold_content addrs [] []
    simp only [List.flatten_nil, List.nil_append] at hcontent
    by_cases hnil : (chunkFold [] [] addrs).2 = []
    · rw [if_pos hnil, List.append_nil]
      rw [show ([padRight (natDec (10 * (chunkFold [] [] addrs).1.length
          + (chunkFold [] [] addrs).2.length)) 10, "("]
          ++ (chunkFold [] [] addrs).1.map rowStr ++ [")"]).drop 2
          = (chunkFold [] [] addrs).1.map rowStr ++ [")"] from by simp]
      rw [List.dropLast_concat, linesTokens_rows]
      rw [hnil, List.append_nil] at hcontent
      rw [hcontent]
    · rw [if_neg hnil]
      rw [show ([padRight (natDec (10 * (chunkFold [] [] addrs).1.length
          + (chunkFold [] [] addrs).2.length)) 10, "("]
          ++ ((chunkFold [] [] addrs).1.map rowStr
              ++ [rowStr (chunkFold [] [] addrs).2]) ++ [")"]).drop 2
          = ((chunkFold [] [] addrs).1.map rowStr
              ++ [rowStr (chunkFold [] [] addrs).2]) ++ [")"] from by simp]
      rw [List.dropLast_concat]
      rw [show (chunkFold [] [] addrs).1.map rowStr
          ++ [rowStr (chunkFold [] [] addrs).2]
          = ((chunkFold [] [] addrs).1 ++ [(chunkFold [] [] addrs).2]).map
            rowStr from by simp]
      rw [linesTokens_rows]
      simp only [List.flatten_append, List.flatten_cons, List.flatten_nil,
        List.append_nil]
      rw [hcontent]
  have hzone := writeSet_lines zone "cellZones" setName
    (finalizedSetFile cls setName addrs) cellZoneSuffix hopen hcur
  refine ⟨hsp1.trans hdrop9.symm, htok, ?_, ?_⟩
  · rw [hzone.1]
    simp [cellZoneSuffix, List.append_assoc]
  · rw [hzone.2, hL]
    exact hsplice.2

/-- C5 witness: the set file for addresses `[1,2,3]` spliced into a fresh
`cellZones` file: the copy equals the file body from the count line on, the
tokens recover `1 2 3`, and the copy succeeds. -/
theorem setFile_splice_roundtrip_witness :
    (FoamFile.openedFile "regIOobject" "constant/polyMesh"
      "cellZones").isOpen = true
  ∧ spliceLines (finalizedSetFile "faceSet" "blade" [1, 2, 3])
      = (finalizedSetFile "faceSet" "blade" [1, 2, 3]).drop 9
  ∧ linesTokens (((spliceLines
      (finalizedSetFile "faceSet" "blade" [1, 2, 3])).drop 2).dropLast)
      = [1, 2, 3].map natDec
  ∧ ((FoamFile.openedFile "regIOobject" "constant/polyMesh"
      "cellZones").writeSet "cellZones" "blade"
      (finalizedSetFile "faceSet" "blade" [1, 2, 3]) cellZoneSuffix).2
      = true :=
  ⟨rfl,
    (setFile_splice_roundtrip "faceSet" "blade" [1, 2, 3]
      (FoamFile.openedFile "regIOobject" "constant/polyMesh" "cellZones")
      rfl rfl).1,
    (setFile_splice_roundtrip "faceSet" "blade" [1, 2, 3]
      (FoamFile.openedFile "regIOobject" "constant/polyMesh" "cellZones")
      rfl rfl).2.1,
    (setFile_splice_roundtrip "faceSet" "blade" [1, 2, 3]
      (FoamFile.openedFile "regIOobject" "constant/polyMesh" "cellZones")
      rfl rfl).2.2.2⟩

end CaeUnsOpenFOAM
